import Mathlib

/-!
Verification of the optimistic-update reconciliation logic of
`src/modules/todos/components/TodoViewDialog.tsx` and the attachment
fetch guard of `src/modules/notes/components/AttachmentDisplay.tsx`
(the `NoteViewDialog` component in that file).

Each React handler is embedded as one or more pure Lean functions on an
explicit dialog state.  An `async` handler is split at its `await`
suspension point into an initiation function (the synchronous part that
runs before the remote call: guards, optimistic apply, pending marking)
and one settle function per promise outcome (the `then`/`catch`
continuations, which React applies to the *current* state via functional
`setState` updates).  Values captured by the continuation closures
(temporary id, the pre-toggle item, the inverted flag) are passed to the
settle functions explicitly.  A remote call issued by a handler is
reified as a `RemoteCall` value so that "no remote call is issued" is a
statable property.
-/

namespace TodoView

/-- `TodoItem` from `src/types/todo.ts` (the fields the dialog logic
reads; optional timestamp fields are omitted, ids are taken as present
since every stored item carries one). -/
structure TodoItem where
  id : String
  description : String
  isCompleted : Bool
  todoId : String
deriving DecidableEq

/-- JavaScript `String.prototype.trim`: drop whitespace from both ends
of the string (expressed over the character list so that it evaluates
inside the kernel). -/
def jsTrim (s : String) : String :=
  ⟨((s.data.dropWhile Char.isWhitespace).reverse.dropWhile Char.isWhitespace).reverse⟩

/-- JavaScript `Set.add` on the insertion-ordered element list:
appends the element if it is absent, otherwise leaves the set unchanged. -/
def setAdd (s : List String) (x : String) : List String :=
  if s.contains x then s else s ++ [x]

/-- JavaScript `Set.delete`: removes the element (sets built with
`setAdd` hold no duplicates, so removing every occurrence is the same). -/
def setDelete (s : List String) (x : String) : List String :=
  s.filter (fun y => y != x)

/-- JavaScript `Set.has`. -/
def setHas (s : List String) (x : String) : Bool :=
  s.contains x

/-- The dialog state of `TodoViewDialog`: the `items` list (the Entity
Store), the `pendingItemIds` set (the Pending-Set) and `pendingDeleteId`
(the id armed by the delete-confirmation popover).  `items` starts as
`[]`, `pendingItemIds` as the empty set, `pendingDeleteId` as `null`. -/
structure DialogState where
  items : List TodoItem
  pendingItemIds : List String
  pendingDeleteId : Option String
deriving DecidableEq

/-- The remote calls the dialog can issue through `todosApi`. -/
inductive RemoteCall where
  | createItem (todoId : String) (description : String) (isCompleted : Bool)
  | updateItemCompleted (todoId itemId : String) (isCompleted : Bool)
  | updateItemDescription (todoId itemId : String) (description : String)
  | deleteItem (todoId itemId : String)
deriving DecidableEq

/-- The temporary id generated in `handleAddItem`:
`const tempId = ` followed by the template `temp-` and `Date.now()`;
`now` is the millisecond timestamp read at initiation time. -/
def tempIdOf (now : Nat) : String :=
  "temp-" ++ toString now

/-- `handleAddItem`, synchronous part (lines 111-127): guard on blank
text, build the temporary item, append it to `items`, add the temporary
id to `pendingItemIds`, then issue the remote create call. -/
def handleAddItemInit (now : Nat) (todoId text : String) (s : DialogState) :
    DialogState × Option RemoteCall :=
  if jsTrim text = "" then (s, none)
  else
    let tempId := tempIdOf now
    let tempItem : TodoItem :=
      { id := tempId, description := jsTrim text, isCompleted := false, todoId := todoId }
    ({ s with
        items := s.items ++ [tempItem],
        pendingItemIds := setAdd s.pendingItemIds tempId },
     some (RemoteCall.createItem todoId (jsTrim text) false))

/-- `handleAddItem`, success continuation (lines 136-154): replace the
temporary item by the server item and unmark the temporary id. -/
def handleAddItemSuccess (tempId : String) (newItem : TodoItem) (s : DialogState) :
    DialogState :=
  { s with
      items := s.items.map (fun item => if item.id = tempId then newItem else item),
      pendingItemIds := setDelete s.pendingItemIds tempId }

/-- `handleAddItem`, failure continuation (lines 155-174): filter the
temporary item out and unmark the temporary id. -/
def handleAddItemFailure (tempId : String) (s : DialogState) : DialogState :=
  { s with
      items := s.items.filter (fun item => item.id != tempId),
      pendingItemIds := setDelete s.pendingItemIds tempId }

/-- The closure data a toggle's continuations capture: the target id,
the pre-toggle item found at initiation time, and the inverted flag. -/
structure ToggleFlight where
  itemId : String
  origItem : TodoItem
  newCompletedStatus : Bool
deriving DecidableEq

/-- `handleToggleItem`, synchronous part (lines 177-209): no-op if the
id is pending or absent; otherwise flip the flag optimistically in
`items` and issue the remote update call with the inverted flag. -/
def handleToggleItemInit (todoId itemId : String) (s : DialogState) :
    DialogState × Option (ToggleFlight × RemoteCall) :=
  if setHas s.pendingItemIds itemId then (s, none)
  else
    match s.items.find? (fun i => i.id == itemId) with
    | none => (s, none)
    | some item =>
      let newCompletedStatus := !item.isCompleted
      ({ s with
          items := s.items.map (fun i =>
            if i.id = itemId then { i with isCompleted := newCompletedStatus } else i) },
       some (⟨itemId, item, newCompletedStatus⟩,
             RemoteCall.updateItemCompleted todoId itemId newCompletedStatus))

/-- `handleToggleItem`, success continuation (lines 211-218): replace
the optimistic entry by the server response on the current list. -/
def handleToggleItemSuccess (f : ToggleFlight) (updatedItem : TodoItem)
    (s : DialogState) : DialogState :=
  { s with
      items := s.items.map (fun i => if i.id = f.itemId then updatedItem else i) }

/-- `handleToggleItem`, failure continuation (lines 219-230): restore
the captured pre-toggle item on the current list. -/
def handleToggleItemFailure (f : ToggleFlight) (s : DialogState) : DialogState :=
  { s with
      items := s.items.map (fun i => if i.id = f.itemId then f.origItem else i) }

/-- `handleDeleteClick` (lines 233-242): no-op if the id is pending,
otherwise arm the confirmation popover with the id. -/
def handleDeleteClick (itemId : String) (s : DialogState) : DialogState :=
  if setHas s.pendingItemIds itemId then s
  else { s with pendingDeleteId := some itemId }

/-- `handleDeleteConfirm`, synchronous part (lines 244-251): with no
armed id it only runs `handleDeleteCancel`; otherwise it captures the
armed id and issues the remote delete call (no optimistic removal). -/
def handleDeleteConfirmInit (todoId : String) (s : DialogState) :
    DialogState × Option (String × RemoteCall) :=
  match s.pendingDeleteId with
  | none => ({ s with pendingDeleteId := none }, none)
  | some itemId => (s, some (itemId, RemoteCall.deleteItem todoId itemId))

/-- `handleDeleteConfirm`, success continuation (lines 252-264 and the
`finally` at 268-270): filter the captured id out of the current list,
then `handleDeleteCancel` resets the armed id. -/
def handleDeleteConfirmSuccess (itemId : String) (s : DialogState) : DialogState :=
  { s with
      items := s.items.filter (fun item => item.id != itemId),
      pendingDeleteId := none }

/-- `handleDeleteConfirm`, failure continuation (lines 265-270): the
store is untouched; the `finally` resets the armed id. -/
def handleDeleteConfirmFailure (s : DialogState) : DialogState :=
  { s with pendingDeleteId := none }

/-- `handleUpdateItemText`, synchronous part (lines 280-308): a blank
trimmed text issues the remote delete call for the id, otherwise the
remote description-update call; the store is untouched before the
remote call settles. -/
def handleUpdateItemTextInit (todoId itemId text : String) (s : DialogState) :
    DialogState × RemoteCall :=
  if jsTrim text = "" then (s, RemoteCall.deleteItem todoId itemId)
  else (s, RemoteCall.updateItemDescription todoId itemId (jsTrim text))

/-- `handleUpdateItemText`, blank branch, success continuation
(lines 286-298): filter the id out of the current list. -/
def handleUpdateItemTextDeleteSuccess (itemId : String) (s : DialogState) :
    DialogState :=
  { s with items := s.items.filter (fun item => item.id != itemId) }

/-- `handleUpdateItemText`, non-blank branch, success continuation
(lines 307-325): replace the entry by the server response. -/
def handleUpdateItemTextUpdateSuccess (itemId : String) (updatedItem : TodoItem)
    (s : DialogState) : DialogState :=
  { s with
      items := s.items.map (fun item => if item.id = itemId then updatedItem else item) }

/-- `handleUpdateItemText`, failure continuations (both branches only
log and notify): the store is unchanged. -/
def handleUpdateItemTextFailure (s : DialogState) : DialogState :=
  s

/-- One atomic state update of the dialog, as scheduled on the
single-threaded event loop: either the synchronous part of a handler or
one settle continuation of an in-flight promise.  Settle actions carry
the data their closures captured at initiation time. -/
inductive Action where
  | addInit (now : Nat) (todoId text : String)
  | addSucceed (tempId : String) (newItem : TodoItem)
  | addFail (tempId : String)
  | toggleInit (todoId itemId : String)
  | toggleSucceed (f : ToggleFlight) (updatedItem : TodoItem)
  | toggleFail (f : ToggleFlight)
  | deleteClick (itemId : String)
  | deleteConfirmSucceed (itemId : String)
  | deleteConfirmFail
deriving DecidableEq

/-- The state transition of one atomic action (the remote-call component
of the initiation steps is dropped here; initiation guards are kept). -/
def applyAction (a : Action) (s : DialogState) : DialogState :=
  match a with
  | .addInit now todoId text => (handleAddItemInit now todoId text s).1
  | .addSucceed tempId newItem => handleAddItemSuccess tempId newItem s
  | .addFail tempId => handleAddItemFailure tempId s
  | .toggleInit todoId itemId => (handleToggleItemInit todoId itemId s).1
  | .toggleSucceed f updatedItem => handleToggleItemSuccess f updatedItem s
  | .toggleFail f => handleToggleItemFailure f s
  | .deleteClick itemId => handleDeleteClick itemId s
  | .deleteConfirmSucceed itemId => handleDeleteConfirmSuccess itemId s
  | .deleteConfirmFail => handleDeleteConfirmFailure s

/-- Run a sequence of atomic actions from a state. -/
def runActions : DialogState → List Action → DialogState
  | s, [] => s
  | s, a :: rest => runActions (applyAction a s) rest

/-- The id an action adds to the Pending-Set: only a non-blank create
initiation marks (its temporary id). -/
def marksId : Action → Option String
  | .addInit now _ text => if jsTrim text = "" then none else some (tempIdOf now)
  | _ => none

/-- The id an action removes from the Pending-Set: only the two settle
continuations of a create unmark (the captured temporary id). -/
def settlesId : Action → Option String
  | .addSucceed tempId _ => some tempId
  | .addFail tempId => some tempId
  | _ => none

/-- How an action touches membership of `x` in the Pending-Set:
`some true` forces `x` in, `some false` forces `x` out, `none` leaves
membership of `x` unchanged. -/
def touchOf (x : String) (a : Action) : Option Bool :=
  if marksId a = some x then some true
  else if settlesId a = some x then some false
  else none

/-- The last Pending-Set touch of `x` in an action sequence, if any. -/
def lastTouch (x : String) : List Action → Option Bool
  | [] => none
  | a :: rest =>
    match lastTouch x rest with
    | some b => some b
    | none => touchOf x a

/-- A sequence of operations is drained when every create initiation is
followed, later in the sequence, by the settlement of its remote promise
(success or failure) for the same temporary id. -/
def Drained (evs : List Action) : Prop :=
  ∀ i a x, evs.get? i = some a → marksId a = some x →
    ∃ j b, i < j ∧ evs.get? j = some b ∧ settlesId b = some x

end TodoView

namespace NoteView

/-- The attachment-related state of `NoteViewDialog`
(`src/modules/notes/components/AttachmentDisplay.tsx`, lines 839-842):
the fetched attachment list (modelled by its ids), the loading flag, the
error message, and the `hasFetchedRef` marker holding the last note id a
fetch was started for (reset to `null` on error or close). -/
structure NoteViewState where
  attachments : List String
  loadingAttachments : Bool
  attachmentError : Option String
  hasFetchedRef : Option String
deriving DecidableEq

/-- The remote call the attachment view can issue. -/
inductive FetchCall where
  | listAttachments (noteId : String)
deriving DecidableEq

/-- `fetchAttachments`, synchronous part (lines 844-856): unless
retrying manually, a note id equal to the marker returns early with no
remote call; otherwise set loading, clear the error, set the marker to
the note id and issue the fetch call. -/
def fetchAttachmentsStart (noteId : String) (forceRetry : Bool) (s : NoteViewState) :
    NoteViewState × Option FetchCall :=
  if forceRetry = false ∧ s.hasFetchedRef = some noteId then (s, none)
  else
    ({ s with
        loadingAttachments := true,
        attachmentError := none,
        hasFetchedRef := some noteId },
     some (FetchCall.listAttachments noteId))

/-- `fetchAttachments`, success continuation (lines 857-860 and the
`finally` at 871-873): store the fetched list; the marker is untouched. -/
def fetchAttachmentsSuccess (fetched : List String) (s : NoteViewState) :
    NoteViewState :=
  { s with
      attachments := fetched,
      attachmentError := none,
      loadingAttachments := false }

/-- `fetchAttachments`, failure continuation (lines 861-873): clear the
list, record the error and reset the marker so a retry can fetch. -/
def fetchAttachmentsFailure (msg : String) (s : NoteViewState) : NoteViewState :=
  { s with
      attachments := [],
      attachmentError := some msg,
      hasFetchedRef := none,
      loadingAttachments := false }

/-- The effect body for an open dialog (lines 878-893): reset state if
the marker names a different note, then either run `fetchAttachments`
(note has attachment ids) or clear and mark the note as fetched. -/
def attachmentsEffectOpen (noteId : String) (hasAttachmentIds : Bool)
    (s : NoteViewState) : NoteViewState × Option FetchCall :=
  let s₁ :=
    if s.hasFetchedRef ≠ some noteId then
      { s with attachments := [], attachmentError := none, hasFetchedRef := none }
    else s
  if hasAttachmentIds then fetchAttachmentsStart noteId false s₁
  else ({ s₁ with
          attachments := [],
          attachmentError := none,
          hasFetchedRef := some noteId }, none)

/-- The effect body for a closed dialog (lines 894-899). -/
def attachmentsEffectClosed (s : NoteViewState) : NoteViewState :=
  { s with attachments := [], attachmentError := none, hasFetchedRef := none }

/-- `handleRetryAttachments` (lines 909-913): a manual retry forces the
fetch. -/
def handleRetryAttachments (noteId : String) (s : NoteViewState) :
    NoteViewState × Option FetchCall :=
  fetchAttachmentsStart noteId true s

end NoteView

namespace TodoView

/-! ### Helper lemmas about the set model and list reconciliation -/

theorem contains_iff_mem (l : List String) (x : String) :
    l.contains x = true ↔ x ∈ l :=
  List.elem_iff

theorem setHas_setAdd_self (p : List String) (x : String) :
    setHas (setAdd p x) x = true := by
  unfold setHas setAdd
  rw [contains_iff_mem]
  by_cases h : p.contains x = true
  · rw [if_pos h]
    exact (contains_iff_mem p x).mp h
  · rw [if_neg h]
    exact List.mem_append_right _ (List.mem_singleton_self x)

theorem setHas_setDelete_self (p : List String) (x : String) :
    setHas (setDelete p x) x = false := by
  unfold setHas setDelete
  rw [Bool.eq_false_iff]
  intro hc
  have hmem := (contains_iff_mem _ _).mp hc
  have := (List.mem_filter.mp hmem).2
  simp at this

theorem setDelete_setAdd (p : List String) (x : String) :
    setDelete (setAdd p x) x = setDelete p x := by
  unfold setDelete setAdd
  by_cases h : p.contains x = true
  · rw [if_pos h]
  · rw [if_neg h, List.filter_append]
    simp

theorem filter_ne_of_fresh (l : List TodoItem) (t : String)
    (h : ∀ i ∈ l, i.id ≠ t) :
    l.filter (fun i => i.id != t) = l :=
  List.filter_eq_self.mpr (fun i hi => by simpa [bne_iff_ne] using h i hi)

theorem map_replace_of_fresh (l : List TodoItem) (t : String) (X : TodoItem)
    (h : ∀ i ∈ l, i.id ≠ t) :
    l.map (fun i => if i.id = t then X else i) = l := by
  induction l with
  | nil => rfl
  | cons a l ih =>
    have ha := h a (List.mem_cons_self a l)
    simp only [List.map_cons, if_neg ha]
    rw [ih (fun i hi => h i (List.mem_cons_of_mem a hi))]

/-! ### C10: toggling an absent id is a no-op at initiation time -/

/-- C10: for every id not present in the Entity Store,
`handleToggleItem` is a no-op at initiation time: the store and the
Pending-Set are unchanged and no remote update call is issued (the
absent-target guard runs before the optimistic apply). -/
theorem c10_toggle_absent_noop (todoId itemId : String) (s : DialogState)
    (habs : ∀ i ∈ s.items, i.id ≠ itemId) :
    handleToggleItemInit todoId itemId s = (s, none) := by
  have hfind : s.items.find? (fun i => i.id == itemId) = none :=
    List.find?_eq_none.mpr (fun i hi => by simpa using habs i hi)
  unfold handleToggleItemInit
  split
  · rfl
  · rw [hfind]

/-- C10 witness: toggling id `z`, absent from a concrete one-item store,
returns the state unchanged with no remote call. -/
theorem c10_witness :
    handleToggleItemInit "T" "z"
        ⟨[⟨"a", "d", false, "T"⟩], [], none⟩
      = (⟨[⟨"a", "d", false, "T"⟩], [], none⟩, none) :=
  c10_toggle_absent_noop "T" "z" ⟨[⟨"a", "d", false, "T"⟩], [], none⟩ (by decide)

end TodoView

namespace TodoView

/-! ### C6: the Pending-Set guard -/

/-- C6 (amended): calling toggle or delete on an id currently in the
Pending-Set is a no-op — the toggle initiation returns the state
unchanged with no remote call, the delete click does not arm the
confirmation popover, and an unarmed confirmation issues no remote call;
and a non-blank create initiation does mark its temporary id pending
(so both are blocked while that create is in flight).  Toggle and delete
do not themselves mark their target id pending, so this guard covers
in-flight creates only. -/
theorem c6_pending_guard (todoId itemId : String) (s t u : DialogState)
    (now : Nat) (tid text : String)
    (hp : setHas s.pendingItemIds itemId = true)
    (ht : t.pendingDeleteId = none)
    (htrim : jsTrim text ≠ "") :
    handleToggleItemInit todoId itemId s = (s, none) ∧
    handleDeleteClick itemId s = s ∧
    handleDeleteConfirmInit todoId t = (t, none) ∧
    setHas (handleAddItemInit now tid text u).1.pendingItemIds (tempIdOf now) = true := by
  refine ⟨?_, ?_, ?_, ?_⟩
  · unfold handleToggleItemInit
    rw [if_pos hp]
  · unfold handleDeleteClick
    rw [if_pos hp]
  · obtain ⟨ti, tp, td⟩ := t
    simp only at ht
    subst ht
    rfl
  · unfold handleAddItemInit
    rw [if_neg htrim]
    exact setHas_setAdd_self _ _

/-- C6 witness: the guard at a concrete pending id and concrete states. -/
theorem c6_witness :
    handleToggleItemInit "T" "x" ⟨[⟨"x", "d", false, "T"⟩], ["x"], none⟩
      = (⟨[⟨"x", "d", false, "T"⟩], ["x"], none⟩, none) ∧
    handleDeleteClick "x" ⟨[⟨"x", "d", false, "T"⟩], ["x"], none⟩
      = ⟨[⟨"x", "d", false, "T"⟩], ["x"], none⟩ ∧
    handleDeleteConfirmInit "T" ⟨[], [], none⟩ = (⟨[], [], none⟩, none) ∧
    setHas (handleAddItemInit 5 "T" "a" ⟨[], [], none⟩).1.pendingItemIds
        (tempIdOf 5) = true :=
  c6_pending_guard "T" "x" ⟨[⟨"x", "d", false, "T"⟩], ["x"], none⟩
    ⟨[], [], none⟩ ⟨[], [], none⟩ 5 "T" "a" (by decide) (by decide) (by decide)

/-- C6 counterexample: the claim that no second operation can be
initiated on an id while an operation on it is in flight fails for an
in-flight toggle.  With item `x` not pending, a first toggle of `x`
issues a remote call; before it settles, a second toggle of `x` also
issues a remote call and changes the store — it is not a no-op. -/
theorem c6_counterexample :
    (handleToggleItemInit "T" "x"
        ⟨[⟨"x", "d", false, "T"⟩], [], none⟩).2 ≠ none ∧
    (handleToggleItemInit "T" "x"
        (handleToggleItemInit "T" "x"
          ⟨[⟨"x", "d", false, "T"⟩], [], none⟩).1).2 ≠ none ∧
    (handleToggleItemInit "T" "x"
        (handleToggleItemInit "T" "x"
          ⟨[⟨"x", "d", false, "T"⟩], [], none⟩).1).1
      ≠ (handleToggleItemInit "T" "x"
          ⟨[⟨"x", "d", false, "T"⟩], [], none⟩).1 := by
  decide

/-! ### C7: blank update text delegates to delete -/

/-- C7 (amended): calling `handleUpdateItemText` with text that trims to
empty behaves exactly as the delete operation: the initiation leaves the
store untouched and issues the same remote delete call, the success
continuation settles the Entity Store exactly as the delete success
continuation does (the entity is then absent), and on remote failure the
store is unchanged (the entity remains). -/
theorem c7_blank_text_is_delete (todoId itemId text : String) (s : DialogState)
    (htrim : jsTrim text = "") :
    handleUpdateItemTextInit todoId itemId text s
      = (s, RemoteCall.deleteItem todoId itemId) ∧
    (handleUpdateItemTextDeleteSuccess itemId s).items
      = (handleDeleteConfirmSuccess itemId s).items ∧
    ((handleUpdateItemTextDeleteSuccess itemId s).items.any
        (fun i => i.id == itemId)) = false ∧
    handleUpdateItemTextFailure s = s := by
  refine ⟨?_, rfl, ?_, rfl⟩
  · unfold handleUpdateItemTextInit
    rw [if_pos htrim]
  · unfold handleUpdateItemTextDeleteSuccess
    simp only [List.any_eq_true, not_exists]
    rw [Bool.eq_false_iff]
    intro hc
    obtain ⟨i, hi, hbeq⟩ := List.any_eq_true.mp hc
    have := (List.mem_filter.mp hi).2
    rw [beq_iff_eq] at hbeq
    simp [hbeq] at this

/-- C7 witness: `updateText(id = x, newText = "   ")` issues the delete
call, its success removes `x`, and the settles match delete's. -/
theorem c7_witness :
    handleUpdateItemTextInit "T" "x" "   " ⟨[⟨"x", "d", false, "T"⟩], [], none⟩
      = (⟨[⟨"x", "d", false, "T"⟩], [], none⟩, RemoteCall.deleteItem "T" "x") ∧
    (handleUpdateItemTextDeleteSuccess "x"
        ⟨[⟨"x", "d", false, "T"⟩], [], none⟩).items
      = (handleDeleteConfirmSuccess "x"
        ⟨[⟨"x", "d", false, "T"⟩], [], none⟩).items ∧
    ((handleUpdateItemTextDeleteSuccess "x"
        ⟨[⟨"x", "d", false, "T"⟩], [], none⟩).items.any
        (fun i => i.id == "x")) = false ∧
    handleUpdateItemTextFailure ⟨[⟨"x", "d", false, "T"⟩], [], none⟩
      = ⟨[⟨"x", "d", false, "T"⟩], [], none⟩ :=
  c7_blank_text_is_delete "T" "x" "   " ⟨[⟨"x", "d", false, "T"⟩], [], none⟩ (by decide)

/-- C7 counterexample: the claim as stated asserts the entity is absent
after settlement for every settlement; but when the remote delete fails,
the blank-text update leaves entity `x` in the store. -/
theorem c7_counterexample :
    (handleUpdateItemTextInit "T" "x" "   "
        ⟨[⟨"x", "d", false, "T"⟩], [], none⟩).2 = RemoteCall.deleteItem "T" "x" ∧
    (handleUpdateItemTextFailure
        (handleUpdateItemTextInit "T" "x" "   "
          ⟨[⟨"x", "d", false, "T"⟩], [], none⟩).1).items
      = [⟨"x", "d", false, "T"⟩] := by
  decide

end TodoView

namespace TodoView

/-! ### C1, C2: create reconciliation -/

/-- C1 (amended): when a create's remote call fails and the generated
temporary id does not already occur in the store (which holds unless
another create was initiated in the same `Date.now()` tick), the
settled state holds exactly the entities present before the create
attempt — the temporary entity is fully removed, nothing else is added,
removed or modified — and the temporary id is removed from the
Pending-Set. -/
theorem c1_create_failure_rollback (now : Nat) (todoId text : String)
    (s : DialogState)
    (htrim : jsTrim text ≠ "")
    (hfresh : ∀ i ∈ s.items, i.id ≠ tempIdOf now) :
    handleAddItemFailure (tempIdOf now) (handleAddItemInit now todoId text s).1
      = { s with pendingItemIds := setDelete s.pendingItemIds (tempIdOf now) } ∧
    setHas (handleAddItemFailure (tempIdOf now)
        (handleAddItemInit now todoId text s).1).pendingItemIds
        (tempIdOf now) = false := by
  obtain ⟨items, pend, pdid⟩ := s
  unfold handleAddItemInit
  rw [if_neg htrim]
  unfold handleAddItemFailure
  simp only [DialogState.mk.injEq]
  refine ⟨⟨?_, ?_, trivial⟩, ?_⟩
  · rw [List.filter_append, filter_ne_of_fresh _ _ hfresh]
    simp
  · exact setDelete_setAdd pend (tempIdOf now)
  · rw [setDelete_setAdd]
    exact setHas_setDelete_self pend (tempIdOf now)

/-- C1 witness: a failing create at a concrete fresh state rolls back
exactly. -/
theorem c1_witness :
    handleAddItemFailure (tempIdOf 5)
        (handleAddItemInit 5 "T" "hello" ⟨[⟨"a", "d", true, "T"⟩], [], none⟩).1
      = ⟨[⟨"a", "d", true, "T"⟩], setDelete [] (tempIdOf 5), none⟩ ∧
    setHas (handleAddItemFailure (tempIdOf 5)
        (handleAddItemInit 5 "T" "hello" ⟨[⟨"a", "d", true, "T"⟩], [], none⟩).1).pendingItemIds
        (tempIdOf 5) = false :=
  c1_create_failure_rollback 5 "T" "hello" ⟨[⟨"a", "d", true, "T"⟩], [], none⟩
    (by decide) (by decide)

/-- C1 counterexample: the unamended claim quantifies over every store.
If the store already holds an entity with the same timestamp-derived
temporary id (a first same-tick create still in flight), the failure
rollback of a second create removes that entity too, so the settled
store differs from the store before the create attempt. -/
theorem c1_counterexample :
    (handleAddItemInit 7 "T" "b"
        ⟨[⟨"temp-7", "keep", false, "T"⟩], ["temp-7"], none⟩).2 ≠ none ∧
    (handleAddItemFailure (tempIdOf 7)
        (handleAddItemInit 7 "T" "b"
          ⟨[⟨"temp-7", "keep", false, "T"⟩], ["temp-7"], none⟩).1).items
      = [] := by
  decide

/-- C2 (amended): when a create's remote call succeeds with server
entity `E`, the temporary id does not already occur in the store (true
unless another create shares the same `Date.now()` tick) and `E`'s id
differs from the temporary id, the settled store is exactly the prior
entities with the temporary entry replaced in place by `E` (appended
position preserved, no duplication), the temporary id is gone from the
store, and it is removed from the Pending-Set. -/
theorem c2_create_success_replace (now : Nat) (todoId text : String)
    (E : TodoItem) (s : DialogState)
    (htrim : jsTrim text ≠ "")
    (hfresh : ∀ i ∈ s.items, i.id ≠ tempIdOf now)
    (hE : E.id ≠ tempIdOf now) :
    handleAddItemSuccess (tempIdOf now) E (handleAddItemInit now todoId text s).1
      = { s with
          items := s.items ++ [E],
          pendingItemIds := setDelete s.pendingItemIds (tempIdOf now) } ∧
    ((handleAddItemSuccess (tempIdOf now) E
        (handleAddItemInit now todoId text s).1).items.any
        (fun i => i.id == tempIdOf now)) = false := by
  obtain ⟨items, pend, pdid⟩ := s
  unfold handleAddItemInit
  rw [if_neg htrim]
  unfold handleAddItemSuccess
  simp only [DialogState.mk.injEq]
  have hitems :
      (items ++ [({ id := tempIdOf now, description := jsTrim text,
                    isCompleted := false, todoId := todoId } : TodoItem)]).map
        (fun i => if i.id = tempIdOf now then E else i) = items ++ [E] := by
    rw [List.map_append, map_replace_of_fresh _ _ _ hfresh]
    simp
  refine ⟨⟨hitems, setDelete_setAdd pend (tempIdOf now), trivial⟩, ?_⟩
  rw [hitems]
  rw [Bool.eq_false_iff]
  intro hc
  obtain ⟨i, hi, hbeq⟩ := List.any_eq_true.mp hc
  rw [beq_iff_eq] at hbeq
  rcases List.mem_append.mp hi with hil | hir
  · exact hfresh i hil hbeq
  · rw [List.mem_singleton.mp hir] at hbeq
    exact hE hbeq

/-- C2 witness: a successful create at a concrete fresh state replaces
the temporary entry by the server entity in place. -/
theorem c2_witness :
    handleAddItemSuccess (tempIdOf 5) ⟨"srv-9", "hello", false, "T"⟩
        (handleAddItemInit 5 "T" "hello" ⟨[⟨"a", "d", true, "T"⟩], [], none⟩).1
      = ⟨[⟨"a", "d", true, "T"⟩, ⟨"srv-9", "hello", false, "T"⟩],
         setDelete [] (tempIdOf 5), none⟩ ∧
    ((handleAddItemSuccess (tempIdOf 5) ⟨"srv-9", "hello", false, "T"⟩
        (handleAddItemInit 5 "T" "hello" ⟨[⟨"a", "d", true, "T"⟩], [], none⟩).1).items.any
        (fun i => i.id == tempIdOf 5)) = false :=
  c2_create_success_replace 5 "T" "hello" ⟨"srv-9", "hello", false, "T"⟩
    ⟨[⟨"a", "d", true, "T"⟩], [], none⟩ (by decide) (by decide) (by decide)

/-- C2 counterexample: the unamended claim quantifies over every store.
If the store already holds an entity with the same timestamp-derived
temporary id (a first same-tick create still in flight), the success
reconciliation of a second create replaces both entries with the server
entity `E`, leaving two copies of `E` — the creation is duplicated, not
replaced exactly once. -/
theorem c2_counterexample :
    (handleAddItemSuccess (tempIdOf 7) ⟨"srv-1", "b", false, "T"⟩
        (handleAddItemInit 7 "T" "b"
          ⟨[⟨"temp-7", "a", false, "T"⟩], ["temp-7"], none⟩).1).items
      = [⟨"srv-1", "b", false, "T"⟩, ⟨"srv-1", "b", false, "T"⟩] := by
  decide

end TodoView

namespace TodoView

/-! ### C5: toggle rollback -/

theorem map_restore_of_nodup (l : List TodoItem) (t : String) (orig : TodoItem)
    (hnd : (l.map (fun i => i.id)).Nodup)
    (hfind : l.find? (fun i => i.id == t) = some orig) :
    l.map (fun i => if i.id = t then orig else i) = l := by
  induction l with
  | nil => simp at hfind
  | cons a l ih =>
    rw [List.map_cons, List.nodup_cons] at hnd
    obtain ⟨hna, hnl⟩ := hnd
    rw [List.find?_cons] at hfind
    by_cases ha : a.id = t
    · have hb : (a.id == t) = true := by simpa using ha
      rw [hb] at hfind
      have haorig : a = orig := by injection hfind
      subst haorig
      simp only [List.map_cons, if_pos ha]
      rw [map_replace_of_fresh]
      intro i hi hit
      exact hna (List.mem_map.mpr ⟨i, hi, by rw [hit, ha]⟩)
    · have hb : (a.id == t) = false := by simpa using ha
      rw [hb] at hfind
      simp only [List.map_cons, if_neg ha]
      rw [ih hnl hfind]

/-- C5: toggling an entity's completion flag (not pending, found in the
store, ids distinct) and then failing the remote confirmation restores
the store exactly: the entity's flag — indeed the whole entity — equals
its pre-toggle value, and the initiation issued the update call with the
inverted flag. -/
theorem c5_toggle_failure_reverts (todoId itemId : String) (orig : TodoItem)
    (s : DialogState)
    (hp : setHas s.pendingItemIds itemId = false)
    (hfind : s.items.find? (fun i => i.id == itemId) = some orig)
    (hnd : (s.items.map (fun i => i.id)).Nodup) :
    (handleToggleItemInit todoId itemId s).2
      = some (⟨itemId, orig, !orig.isCompleted⟩,
              RemoteCall.updateItemCompleted todoId itemId (!orig.isCompleted)) ∧
    (handleToggleItemFailure ⟨itemId, orig, !orig.isCompleted⟩
        (handleToggleItemInit todoId itemId s).1).items = s.items := by
  have hinit : handleToggleItemInit todoId itemId s
      = ({ s with items := s.items.map (fun i =>
            if i.id = itemId then { i with isCompleted := !orig.isCompleted } else i) },
         some (⟨itemId, orig, !orig.isCompleted⟩,
               RemoteCall.updateItemCompleted todoId itemId (!orig.isCompleted))) := by
    unfold handleToggleItemInit
    rw [if_neg (by simp [hp]), hfind]
  constructor
  · rw [hinit]
  · rw [hinit]
    unfold handleToggleItemFailure
    simp only [List.map_map]
    have hcomp : ((fun i => if i.id = itemId then orig else i) ∘
        (fun i => if i.id = itemId then { i with isCompleted := !orig.isCompleted } else i))
        = fun i : TodoItem => if i.id = itemId then orig else i := by
      funext i
      by_cases h : i.id = itemId
      · simp [Function.comp, h]
      · simp [Function.comp, h]
    rw [hcomp]
    exact map_restore_of_nodup s.items itemId orig hnd hfind

/-- C5 witness: toggling concrete entity `x` and failing the remote call
leaves the store exactly as before the toggle. -/
theorem c5_witness :
    (handleToggleItemInit "T" "x" ⟨[⟨"x", "d", false, "T"⟩], [], none⟩).2
      = some (⟨"x", ⟨"x", "d", false, "T"⟩, !(false : Bool)⟩,
              RemoteCall.updateItemCompleted "T" "x" (!(false : Bool))) ∧
    (handleToggleItemFailure ⟨"x", ⟨"x", "d", false, "T"⟩, !(false : Bool)⟩
        (handleToggleItemInit "T" "x" ⟨[⟨"x", "d", false, "T"⟩], [], none⟩).1).items
      = [⟨"x", "d", false, "T"⟩] :=
  c5_toggle_failure_reverts "T" "x" ⟨"x", "d", false, "T"⟩
    ⟨[⟨"x", "d", false, "T"⟩], [], none⟩ (by decide) (by decide) (by decide)

/-! ### C8: temporary ids are timestamp-derived and can collide -/

/-- C8: two creates initiated within the same `Date.now()` tick generate
the identical temporary id.  Evaluating the code at the failing input:
after a first create of tick 7 is applied optimistically, its temporary
id is present in the store, and a second create of the same tick appends
an entity with that same id, leaving two entities with equal ids — the
claimed uniqueness of the locally generated id fails. -/
theorem c8_same_tick_temp_id_collision :
    ((handleAddItemInit 7 "T" "a" ⟨[], [], none⟩).1.items.any
        (fun i => i.id == tempIdOf 7)) = true ∧
    ((handleAddItemInit 7 "T" "b"
        (handleAddItemInit 7 "T" "a" ⟨[], [], none⟩).1).1.items.filter
        (fun i => i.id == tempIdOf 7)).length = 2 := by
  decide

end TodoView

namespace TodoView

/-! ### C4: concurrent delete and toggle on distinct entities -/

theorem any_eq_false_filter_ne (l : List TodoItem) (t : String) :
    ((l.filter (fun i => i.id != t)).any (fun i => i.id == t)) = false := by
  rw [Bool.eq_false_iff]
  intro hc
  obtain ⟨i, hi, hbeq⟩ := List.any_eq_true.mp hc
  have := (List.mem_filter.mp hi).2
  rw [beq_iff_eq] at hbeq
  simp [hbeq] at this

theorem filter_map_comm_of_pred_preserved (l : List TodoItem)
    (f : TodoItem → TodoItem) (p : TodoItem → Bool)
    (hf : ∀ i, p (f i) = p i) :
    (l.map f).filter p = (l.filter p).map f := by
  induction l with
  | nil => rfl
  | cons a l ih =>
    rw [List.map_cons, List.filter_cons, List.filter_cons, hf a]
    by_cases hpa : p a = true
    · rw [if_pos hpa, if_pos hpa, List.map_cons, ih]
    · rw [if_neg hpa, if_neg hpa, ih]

/-- C4: with two distinct entities `A` and `B` in the store (neither
pending), a delete of `A` and a toggle of `B` both in flight settle to
the same final state in either resolution order: both remote calls are
issued, `A` is removed, and `B`'s toggle survives as the server entity
`E` — the toggle is not lost to the delete settling later, because each
settle continuation is a read-modify-write on the current list. -/
theorem c4_concurrent_delete_toggle_isolation (todoId : String)
    (s : DialogState) (A B E : TodoItem)
    (hAB : A.id ≠ B.id)
    (hA : A ∈ s.items)
    (hfind : s.items.find? (fun i => i.id == B.id) = some B)
    (hApend : setHas s.pendingItemIds A.id = false)
    (hBpend : setHas s.pendingItemIds B.id = false)
    (hE : E.id = B.id) :
    (handleDeleteConfirmInit todoId (handleDeleteClick A.id s)).2
      = some (A.id, RemoteCall.deleteItem todoId A.id) ∧
    (handleToggleItemInit todoId B.id (handleDeleteClick A.id s)).2
      = some (⟨B.id, B, !B.isCompleted⟩,
              RemoteCall.updateItemCompleted todoId B.id (!B.isCompleted)) ∧
    handleDeleteConfirmSuccess A.id
        (handleToggleItemSuccess ⟨B.id, B, !B.isCompleted⟩ E
          (handleToggleItemInit todoId B.id (handleDeleteClick A.id s)).1)
      = handleToggleItemSuccess ⟨B.id, B, !B.isCompleted⟩ E
          (handleDeleteConfirmSuccess A.id
            (handleToggleItemInit todoId B.id (handleDeleteClick A.id s)).1) ∧
    E ∈ (handleDeleteConfirmSuccess A.id
        (handleToggleItemSuccess ⟨B.id, B, !B.isCompleted⟩ E
          (handleToggleItemInit todoId B.id (handleDeleteClick A.id s)).1)).items ∧
    ((handleDeleteConfirmSuccess A.id
        (handleToggleItemSuccess ⟨B.id, B, !B.isCompleted⟩ E
          (handleToggleItemInit todoId B.id (handleDeleteClick A.id s)).1)).items.any
        (fun i => i.id == A.id)) = false := by
  obtain ⟨items, pend, pdid⟩ := s
  simp only at hA hfind hApend hBpend
  have hclick : handleDeleteClick A.id ⟨items, pend, pdid⟩
      = ⟨items, pend, some A.id⟩ := by
    unfold handleDeleteClick
    rw [if_neg (by simp [hApend])]
  have hinit : handleToggleItemInit todoId B.id ⟨items, pend, some A.id⟩
      = (⟨items.map (fun i =>
            if i.id = B.id then { i with isCompleted := !B.isCompleted } else i),
          pend, some A.id⟩,
         some (⟨B.id, B, !B.isCompleted⟩,
               RemoteCall.updateItemCompleted todoId B.id (!B.isCompleted))) := by
    unfold handleToggleItemInit
    rw [if_neg (by simp [hBpend]), hfind]
  have hpred : ∀ i : TodoItem,
      ((if i.id = B.id then E else i).id != A.id) = (i.id != A.id) := by
    intro i
    by_cases h : i.id = B.id
    · simp [h, hE]
    · simp [h]
  refine ⟨?_, ?_, ?_, ?_, ?_⟩
  · rw [hclick]
    rfl
  · rw [hclick, hinit]
  · rw [hclick, hinit]
    unfold handleDeleteConfirmSuccess handleToggleItemSuccess
    simp only [DialogState.mk.injEq, and_true]
    exact filter_map_comm_of_pred_preserved _ _ _ hpred
  · rw [hclick, hinit]
    unfold handleDeleteConfirmSuccess handleToggleItemSuccess
    simp only
    apply List.mem_filter.mpr
    constructor
    · rw [List.map_map]
      exact List.mem_map.mpr
        ⟨B, List.mem_of_find?_eq_some hfind, by simp [Function.comp, hE]⟩
    · simp only [bne_iff_ne, ne_eq, decide_not]
      simp [hE, Ne.symm hAB]
  · rw [hclick, hinit]
    unfold handleDeleteConfirmSuccess handleToggleItemSuccess
    simp only
    exact any_eq_false_filter_ne _ A.id

/-- C4 witness: both resolution orders at a concrete two-item store. -/
theorem c4_witness :
    (handleDeleteConfirmInit "T"
        (handleDeleteClick "a"
          ⟨[⟨"a", "da", false, "T"⟩, ⟨"b", "db", false, "T"⟩], [], none⟩)).2
      = some ("a", RemoteCall.deleteItem "T" "a") ∧
    (handleToggleItemInit "T" "b"
        (handleDeleteClick "a"
          ⟨[⟨"a", "da", false, "T"⟩, ⟨"b", "db", false, "T"⟩], [], none⟩)).2
      = some (⟨"b", ⟨"b", "db", false, "T"⟩, !(false : Bool)⟩,
              RemoteCall.updateItemCompleted "T" "b" (!(false : Bool))) ∧
    handleDeleteConfirmSuccess "a"
        (handleToggleItemSuccess ⟨"b", ⟨"b", "db", false, "T"⟩, !(false : Bool)⟩
          ⟨"b", "db", true, "T"⟩
          (handleToggleItemInit "T" "b"
            (handleDeleteClick "a"
              ⟨[⟨"a", "da", false, "T"⟩, ⟨"b", "db", false, "T"⟩], [], none⟩)).1)
      = handleToggleItemSuccess ⟨"b", ⟨"b", "db", false, "T"⟩, !(false : Bool)⟩
          ⟨"b", "db", true, "T"⟩
          (handleDeleteConfirmSuccess "a"
            (handleToggleItemInit "T" "b"
              (handleDeleteClick "a"
                ⟨[⟨"a", "da", false, "T"⟩, ⟨"b", "db", false, "T"⟩], [], none⟩)).1) ∧
    (⟨"b", "db", true, "T"⟩ : TodoItem) ∈ (handleDeleteConfirmSuccess "a"
        (handleToggleItemSuccess ⟨"b", ⟨"b", "db", false, "T"⟩, !(false : Bool)⟩
          ⟨"b", "db", true, "T"⟩
          (handleToggleItemInit "T" "b"
            (handleDeleteClick "a"
              ⟨[⟨"a", "da", false, "T"⟩, ⟨"b", "db", false, "T"⟩], [], none⟩)).1)).items ∧
    ((handleDeleteConfirmSuccess "a"
        (handleToggleItemSuccess ⟨"b", ⟨"b", "db", false, "T"⟩, !(false : Bool)⟩
          ⟨"b", "db", true, "T"⟩
          (handleToggleItemInit "T" "b"
            (handleDeleteClick "a"
              ⟨[⟨"a", "da", false, "T"⟩, ⟨"b", "db", false, "T"⟩], [], none⟩)).1)).items.any
        (fun i => i.id == "a")) = false :=
  c4_concurrent_delete_toggle_isolation "T"
    ⟨[⟨"a", "da", false, "T"⟩, ⟨"b", "db", false, "T"⟩], [], none⟩
    ⟨"a", "da", false, "T"⟩ ⟨"b", "db", false, "T"⟩ ⟨"b", "db", true, "T"⟩
    (by decide) (by decide) (by decide) (by decide) (by decide) (by decide)

end TodoView

namespace TodoView

/-! ### C3: the Pending-Set drains -/

theorem contains_append_singleton_of_ne (p : List String) (t x : String)
    (h : t ≠ x) : (p ++ [t]).contains x = p.contains x := by
  cases hx : p.contains x
  · rw [Bool.eq_false_iff]
    intro hc
    rcases List.mem_append.mp ((contains_iff_mem _ _).mp hc) with h1 | h2
    · rw [(contains_iff_mem _ _).mpr h1] at hx
      exact Bool.noConfusion hx
    · exact h (List.mem_singleton.mp h2).symm
  · exact (contains_iff_mem _ _).mpr
      (List.mem_append_left _ ((contains_iff_mem _ _).mp hx))

theorem setHas_setAdd_of_ne (p : List String) (t x : String) (h : t ≠ x) :
    setHas (setAdd p t) x = setHas p x := by
  unfold setHas setAdd
  by_cases hc : p.contains t = true
  · rw [if_pos hc]
  · rw [if_neg hc]
    exact contains_append_singleton_of_ne p t x h

theorem setHas_setDelete_of_ne (p : List String) (t x : String) (h : t ≠ x) :
    setHas (setDelete p t) x = setHas p x := by
  unfold setHas setDelete
  cases hx : p.contains x
  · rw [Bool.eq_false_iff]
    intro hc
    have hxp : x ∈ p := (List.mem_filter.mp ((contains_iff_mem _ _).mp hc)).1
    rw [(contains_iff_mem _ _).mpr hxp] at hx
    exact Bool.noConfusion hx
  · exact (contains_iff_mem _ _).mpr
      (List.mem_filter.mpr ⟨(contains_iff_mem _ _).mp hx, bne_iff_ne.mpr (Ne.symm h)⟩)

theorem pendingItemIds_toggleInit (todoId itemId : String) (s : DialogState) :
    (handleToggleItemInit todoId itemId s).1.pendingItemIds = s.pendingItemIds := by
  unfold handleToggleItemInit
  split
  · rfl
  · split
    · rfl
    · rfl

/-- How one atomic action changes membership of `x` in the Pending-Set:
exactly as its `touchOf` prescribes. -/
theorem setHas_applyAction (x : String) (a : Action) (s : DialogState) :
    setHas (applyAction a s).pendingItemIds x
      = (match touchOf x a with
         | some b => b
         | none => setHas s.pendingItemIds x) := by
  cases a with
  | addInit now todoId text =>
    by_cases htr : jsTrim text = ""
    · simp [applyAction, handleAddItemInit, htr, touchOf, marksId, settlesId]
    · by_cases hx : tempIdOf now = x
      · subst hx
        simp [applyAction, handleAddItemInit, htr, touchOf, marksId, settlesId,
              setHas_setAdd_self]
      · simp [applyAction, handleAddItemInit, htr, touchOf, marksId, settlesId, hx,
              setHas_setAdd_of_ne _ _ _ hx]
  | addSucceed tempId newItem =>
    by_cases hx : tempId = x
    · subst hx
      simp [applyAction, handleAddItemSuccess, touchOf, marksId, settlesId,
            setHas_setDelete_self]
    · simp [applyAction, handleAddItemSuccess, touchOf, marksId, settlesId, hx,
            setHas_setDelete_of_ne _ _ _ hx]
  | addFail tempId =>
    by_cases hx : tempId = x
    · subst hx
      simp [applyAction, handleAddItemFailure, touchOf, marksId, settlesId,
            setHas_setDelete_self]
    · simp [applyAction, handleAddItemFailure, touchOf, marksId, settlesId, hx,
            setHas_setDelete_of_ne _ _ _ hx]
  | toggleInit todoId itemId =>
    simp [applyAction, touchOf, marksId, settlesId, pendingItemIds_toggleInit]
  | toggleSucceed f updatedItem =>
    simp [applyAction, handleToggleItemSuccess, touchOf, marksId, settlesId]
  | toggleFail f =>
    simp [applyAction, handleToggleItemFailure, touchOf, marksId, settlesId]
  | deleteClick itemId =>
    show setHas (handleDeleteClick itemId s).pendingItemIds x = _
    unfold handleDeleteClick
    split
    · simp [touchOf, marksId, settlesId]
    · simp [touchOf, marksId, settlesId]
  | deleteConfirmSucceed itemId =>
    simp [applyAction, handleDeleteConfirmSuccess, touchOf, marksId, settlesId]
  | deleteConfirmFail =>
    simp [applyAction, handleDeleteConfirmFailure, touchOf, marksId, settlesId]

/-- Membership of `x` in the Pending-Set after a run is decided by the
last action touching `x`, and by the initial state if none does. -/
theorem setHas_runActions (x : String) (evs : List Action) (s : DialogState) :
    setHas (runActions s evs).pendingItemIds x
      = (match lastTouch x evs with
         | some b => b
         | none => setHas s.pendingItemIds x) := by
  induction evs generalizing s with
  | nil => rfl
  | cons a rest ih =>
    show setHas (runActions (applyAction a s) rest).pendingItemIds x = _
    rw [ih]
    cases h : lastTouch x rest
    · simp only [lastTouch, h, setHas_applyAction]
    · simp only [lastTouch, h]

theorem lastTouch_eq_some (x : String) (evs : List Action) (b : Bool)
    (h : lastTouch x evs = some b) :
    ∃ l₁ a l₂, evs = l₁ ++ a :: l₂ ∧ touchOf x a = some b ∧
      lastTouch x l₂ = none := by
  induction evs with
  | nil => simp [lastTouch] at h
  | cons a rest ih =>
    rw [lastTouch] at h
    cases hr : lastTouch x rest with
    | none =>
      rw [hr] at h
      exact ⟨[], a, rest, rfl, h, hr⟩
    | some c =>
      rw [hr] at h
      injection h with h
      subst h
      obtain ⟨l₁, e, l₂, he, ht, hn⟩ := ih hr
      exact ⟨a :: l₁, e, l₂, by rw [he, List.cons_append], ht, hn⟩

theorem touchOf_eq_none_of_lastTouch_none (x : String) (evs : List Action)
    (h : lastTouch x evs = none) :
    ∀ a ∈ evs, touchOf x a = none := by
  induction evs with
  | nil =>
    intro a ha
    simp at ha
  | cons a rest ih =>
    rw [lastTouch] at h
    cases hr : lastTouch x rest with
    | none =>
      rw [hr] at h
      intro c hc
      rcases List.mem_cons.mp hc with rfl | hc2
      · exact h
      · exact ih hr c hc2
    | some c =>
      rw [hr] at h
      exact absurd h (by simp)

theorem marksId_of_touchOf_true (x : String) (a : Action)
    (h : touchOf x a = some true) : marksId a = some x := by
  unfold touchOf at h
  by_cases hm : marksId a = some x
  · exact hm
  · rw [if_neg hm] at h
    by_cases hs : settlesId a = some x
    · rw [if_pos hs] at h
      exact absurd h (by simp)
    · rw [if_neg hs] at h
      exact absurd h (by simp)

theorem touchOf_of_settlesId (x : String) (a : Action)
    (h : settlesId a = some x) : touchOf x a = some false := by
  cases a <;> simp_all [touchOf, marksId, settlesId]

/-- C3: for every sequence of operations (creates, toggles, delete
clicks and their settle continuations) in which every create initiation
is eventually settled, a run from a state with an empty Pending-Set ends
with an empty Pending-Set: every id marked pending by a create is
unmarked on both the success and the failure path, and no id remains
pending. -/
theorem c3_pending_set_drains (evs : List Action) (s : DialogState)
    (h0 : s.pendingItemIds = [])
    (hd : Drained evs) :
    (runActions s evs).pendingItemIds = [] := by
  have hforall : ∀ x, setHas (runActions s evs).pendingItemIds x = false := by
    intro x
    rw [setHas_runActions]
    cases hl : lastTouch x evs with
    | none => simp [h0, setHas, List.contains]
    | some b =>
      cases b with
      | false => rfl
      | true =>
        exfalso
        obtain ⟨l₁, a, l₂, he, ht, hn⟩ := lastTouch_eq_some x evs true hl
        have hm : marksId a = some x := marksId_of_touchOf_true x a ht
        have hgeta : evs.get? l₁.length = some a := by
          rw [he, List.get?_append_right (le_refl _)]
          simp
        obtain ⟨j, c, hj, hgetc, hsc⟩ := hd l₁.length a x hgeta hm
        have hcmem : c ∈ l₂ := by
          rw [he, List.get?_append_right (by omega)] at hgetc
          have hpos : j - l₁.length = (j - l₁.length - 1) + 1 := by omega
          rw [hpos] at hgetc
          simp only [List.get?_cons_succ] at hgetc
          exact List.get?_mem hgetc
        have hnone := touchOf_eq_none_of_lastTouch_none x l₂ hn c hcmem
        rw [touchOf_of_settlesId x c hsc] at hnone
        exact absurd hnone (by simp)
  apply List.eq_nil_iff_forall_not_mem.mpr
  intro x hx
  have hfx := hforall x
  unfold setHas at hfx
  rw [(contains_iff_mem _ x).mpr hx] at hfx
  exact absurd hfx (by simp)

/-- C3 witness: a create followed by its failure settlement drains the
Pending-Set from the empty initial state. -/
theorem c3_witness :
    (runActions ⟨[], [], none⟩
        [Action.addInit 5 "T" "a", Action.addFail (tempIdOf 5)]).pendingItemIds
      = [] := by
  apply c3_pending_set_drains _ _ rfl
  intro i a x hi hm
  match i with
  | 0 =>
    injection hi with hi
    subst hi
    have heval : marksId (Action.addInit 5 "T" "a") = some (tempIdOf 5) := by decide
    rw [heval] at hm
    injection hm with hm
    subst hm
    exact ⟨1, Action.addFail (tempIdOf 5), by omega, rfl, rfl⟩
  | 1 =>
    injection hi with hi
    subst hi
    simp [marksId] at hm
  | (n + 2) =>
    simp [List.get?] at hi

end TodoView

namespace NoteView

/-! ### C9: the fetch guard never re-fetches for the same parent id -/

/-- C9: with the last-successfully-fetched-parent-id marker set to `P`
(as it is after a successful fetch of `P` — the success continuation
leaves the marker untouched, second conjunct), an effect run for the
same parent `P` (as triggered by a parent-notifier update re-rendering
the view) issues no fetch call; and any fetch start issues a call only
on an explicit manual retry or when the marker differs from the target
parent id. -/
theorem c9_no_redundant_fetch (P : String) (b : Bool) (fetched : List String)
    (s t : NoteViewState) (force : Bool)
    (h : s.hasFetchedRef = some P)
    (hcall : (fetchAttachmentsStart P force t).2 ≠ none) :
    (attachmentsEffectOpen P b s).2 = none ∧
    (fetchAttachmentsSuccess fetched s).hasFetchedRef = some P ∧
    (force = true ∨ t.hasFetchedRef ≠ some P) := by
  refine ⟨?_, ?_, ?_⟩
  · cases b <;> simp [attachmentsEffectOpen, fetchAttachmentsStart, h]
  · simp [fetchAttachmentsSuccess, h]
  · by_cases hf : force = true
    · exact Or.inl hf
    · right
      intro hr
      apply hcall
      unfold fetchAttachmentsStart
      rw [if_pos ⟨by simpa using hf, hr⟩]

/-- C9 witness: after a successful fetch for note `p1` the marker holds
`p1` and a re-run of the effect for `p1` issues no call; a start from an
unmarked state does issue one (the disjunct names why). -/
theorem c9_witness :
    (attachmentsEffectOpen "p1" true ⟨["a1"], false, none, some "p1"⟩).2 = none ∧
    (fetchAttachmentsSuccess ["a1"]
        ⟨["a1"], false, none, some "p1"⟩).hasFetchedRef = some "p1" ∧
    ((false : Bool) = true ∨
      (⟨[], false, none, none⟩ : NoteViewState).hasFetchedRef ≠ some "p1") :=
  c9_no_redundant_fetch "p1" true ["a1"] ⟨["a1"], false, none, some "p1"⟩
    ⟨[], false, none, none⟩ false (by decide) (by decide)

end NoteView
